import Mathlib

/-!
Verification of the orchestration layer of `hybpiper/assemble.py`
(HybSeqPipeline / HybPiper).

This file shallowly embeds the stage controller (`assemble`), the mapping
backends (`bwa`, `blastx`), the concurrent per-gene task engine
(`exonerate_multiprocessing`), the per-gene worker (`exonerate`), the shared
progress counter discipline, and the interrupt cleanup handler, and proves the
behavioural properties claimed for them.

Conventions of the embedding:
 - machine state touched by the Python code (files on disk, success of
   external subprocesses) is passed in explicitly as records of booleans and
   lists;
 - calls to the external collaborators (BWA, BLASTx or DIAMOND, the
   distribution step, SPAdes, Exonerate) are recorded as events in the order
   the source would issue them, so that a theorem can say that some
   collaborator was or was not invoked;
 - a Python `sys.exit` with no argument, with an integer, with a message, and
   a plain `return` from `assemble()` are kept distinct, because they produce
   different process exit statuses (`main()` at the bottom of the module
   discards the return value of `assemble`, so a `return` leads to a normal
   interpreter exit with status 0).
-/

namespace HybPiper

/-! ### Pipeline stages (assemble.py lines 1316-1329) -/

/-- The four ordered pipeline stages of `hybpiper assemble`. -/
inductive Stage where
  | map_reads
  | distribute_reads
  | assemble_reads
  | exonerate_contigs
deriving DecidableEq, Repr

/-- The stage order index, exactly the dictionary
`assemble_stages_dict = dict(map_reads 0, distribute_reads 1, assemble_reads 2,
exonerate_contigs 3)` built at assemble.py lines 1316-1319. -/
def assemble_stages_dict : Stage → Nat
  | .map_reads => 0
  | .distribute_reads => 1
  | .assemble_reads => 2
  | .exonerate_contigs => 3

/-- The stage range test performed at assemble.py line 1321:
`assemble_stages_dict[args.start_from] <= assemble_stages_dict[args.end_with]`.
The run proceeds iff this is true. -/
def stageOrderValid (start_from end_with : Stage) : Bool :=
  assemble_stages_dict start_from ≤ assemble_stages_dict end_with

/-! ### Process termination values

Python semantics of the terminations used in `assemble()`:
`sys.exit()` with no argument exits the interpreter with status 0;
`sys.exit(1)` exits with status 1; `sys.exit(msg)` with a string prints the
message to stderr and exits with status 1; a plain `return` (or `return 1`)
hands a value back to `main()` (assemble.py lines 1939 and 1946), which
discards it, so the interpreter exits normally with status 0. -/

/-- How one invocation of `assemble()` terminates. -/
inductive PyTerm where
  | sysExitNoArg
  | sysExitCode (code : Nat)
  | sysExitMsg (msg : String)
  | funcReturn (val : Option Nat)
deriving DecidableEq, Repr

/-- The operating-system process exit status produced by each termination,
given that `main()` ignores the value returned by `assemble()`. -/
def PyTerm.processExit : PyTerm → Nat
  | .sysExitNoArg => 0
  | .sysExitCode code => code
  | .sysExitMsg _ => 1
  | .funcReturn _ => 0

/-! ### The stage controller: `assemble()` (assemble.py lines 1248-1688) -/

/-- One call into an external collaborator made by `assemble()`. -/
inductive Collaborator where
  | bwaMappingUnpaired
  | bwaMapping
  | blastxMappingUnpaired
  | blastxMapping
  | distributeBwa
  | distributeBlastx
  | bbmergeMerge
  | spadesAssembly
  | exonerateContigs
deriving DecidableEq, Repr

/-- The command-line arguments of `assemble()` that drive its control flow. -/
structure AssembleArgs where
  start_from : Stage
  end_with : Stage
  bwa : Bool
  blast : Bool
  unpaired : Bool
  merged : Bool
  readfilesCount : Nat
  sample_dir : String
deriving DecidableEq, Repr

/-- The machine state `assemble()` consults: which files exist on disk and
which external steps succeed when invoked. -/
structure AssembleFS where
  /-- `utils.check_dependencies` succeeds (line 1307). -/
  depsOk : Bool
  /-- the target file exists and is not empty (line 1342). -/
  targetfileOk : Bool
  /-- every input read file exists and is not empty (lines 1351-1355). -/
  readfilesOk : Bool
  /-- the unpaired read file exists and is not empty (line 1358). -/
  unpairedOk : Bool
  /-- `utils.file_exists_and_not_empty(f(sample_dir).bam)` (line 1420). -/
  bamfileOk : Bool
  /-- an existing `*.blastx` output file is present (line 1430). -/
  blastxFileOk : Bool
  /-- the `bwa()` call returns a bam file rather than `None` (line 1445). -/
  bwaMappingSucceeds : Bool
  /-- the `blastx()` call returns an output file rather than `None` (line 1461). -/
  blastxMappingSucceeds : Bool
  /-- the glob for `*_interleaved.fasta` or `*_unpaired.fasta` distributed
  read files is non-empty (lines 1479-1480). -/
  distributedFastasExist : Bool
  /-- the gene directories that received distributed reads (lines 1503-1506). -/
  genesWithReads : List String
  /-- every per-gene `bbmerge.sh` run succeeds (lines 1540-1551). -/
  bbmergeOk : Bool
  /-- the gene list returned by `spades()` (lines 1554-1575). -/
  spadesGenelist : List String
  /-- the glob for existing `*_contigs.fasta` SPAdes assemblies is non-empty
  (line 1521). -/
  assembliesExist : Bool
  /-- the lines of `exonerate_genelist.txt` (line 1592). -/
  exonerateGenelist : List String
deriving DecidableEq, Repr

/-- What one run of `assemble()` did: the collaborator calls it issued, the
error diagnostics it logged, and how it terminated. -/
structure RunOutcome where
  events : List Collaborator
  logs : List String
  term : PyTerm
deriving DecidableEq, Repr

/-- Fixed fragments of the diagnostics logged by `assemble()`; each message
is assembled around the name of the artifact it reports as missing, as in the
f-strings of the source. -/
def stageOrderErrText : String :=
  "[ERROR]: The selected --start_from step is greater than the selected --end_with step!"

def bamResumeErrPre : String :=
  "[ERROR]: The parameter --start_from has been provided together with --bwa, but no existing BWA bamfile with filename "

def bamResumeErrSuf : String :=
  " can be found. Are you sure you have run the pipeline mapping step already for this sample?"

/-- The bam mapping output file name `f(sample_dir).bam` (line 1418). -/
def bamfileName (sample_dir : String) : String :=
  sample_dir ++ ".bam"

/-- The resume diagnostic of lines 1421-1425, naming the missing bam file. -/
def bamResumeErrMsg (sample_dir : String) : String :=
  bamResumeErrPre ++ bamfileName sample_dir ++ bamResumeErrSuf

def blastxResumeErrPre : String :=
  "[ERROR]: The parameter --start_from has been provided and BLASTx/DIAMOND is used for read mapping, but no existing *.blastx output file with filename "

/-- The blastx mapping output file name `f(sample_dir).blastx` (line 1428). -/
def blastxFileName (sample_dir : String) : String :=
  sample_dir ++ ".blastx"

/-- The resume diagnostic of lines 1431-1436, naming the missing blastx file. -/
def blastxResumeErrMsg (sample_dir : String) : String :=
  blastxResumeErrPre ++ blastxFileName sample_dir ++ bamResumeErrSuf

/-- The name pattern of the distributed read files (lines 1479-1485). -/
def distributedFastaPattern : String :=
  "*_interleaved.fasta and/or *_unpaired.fasta"

/-- The resume diagnostic of lines 1481-1486, naming the missing distributed
read files. -/
def distributedResumeErrMsg : String :=
  "[ERROR]: The parameter --start_from has been provided but no distributed reads (" ++
    distributedFastaPattern ++ ") can be found for any gene. Are you sure you have run the pipeline read distribution step already for this sample?"

/-- The name pattern of the SPAdes assembly files (lines 1521-1525). -/
def assemblyFilePattern : String :=
  "*_contigs.fasta"

/-- The resume diagnostic of lines 1523-1527, naming the missing assemblies. -/
def assembliesResumeErrMsg : String :=
  "[ERROR]: The parameter --start_from has been provided but no existing SPAdes assembly files (" ++
    assemblyFilePattern ++ ") can be found for any gene. Are you sure you have run the pipeline read assembly step already for this sample?"

def noGenesWithReadsMsg : String :=
  "[ERROR]: No genes with reads, exiting!"

def noGenesRecoveredMsg : String :=
  "[ERROR]: No genes recovered!"

def bwaStepFailedMsg : String :=
  "[ERROR]: Something went wrong with the BWA step, exiting."

def blastxStepFailedMsg : String :=
  "[ERROR]: Something went wrong with the Blastx step, exiting."

def noContigsMsg : String :=
  "ERROR: No genes had assembled contigs! Exiting!"

def readfileNumberMsg : String :=
  "ERROR: Please specify either one (unpaired) or two (paired) read files! Exiting!"

def tooManyReadfilesMsg : String :=
  "[ERROR]: Please provide a maximum of two read files (R1 and R2) to the -r / --readfiles parameter"

def targetfileMissingMsg : String :=
  "Input target file does not exist or is empty!"

def readfileMissingMsg : String :=
  "Input read file does not exist or is empty!"

def singleReadfileUnpairedMsg : String :=
  "[ERROR]: You have provided a single file of reads along with a file of unpaired reads. Please concatenate these two files."

def cannotDetermineMappingMsg : String :=
  "Can not determine whether BWA or BLASTx option is supplied, exiting..."

def mergeFailedMsg : String :=
  "There was an issue when merging reads. Check read files!"

/-- The effective value of `args.merged` after line 1367: with a single read
file the flag is forced to `False`. -/
def mergedEffective (a : AssembleArgs) : Bool :=
  a.merged && !(a.readfilesCount == 1)

/-- The Exonerate phase of `assemble()` (lines 1592-1626): read the gene list
from `exonerate_genelist.txt`; with no genes, log an error and `return 1`
(line 1601), a value that `main()` discards; otherwise invoke
`exonerate_multiprocessing` and fall through to the report collation, after
which `assemble()` returns `None`. -/
def exoneratePhase (fs : AssembleFS) (evs : List Collaborator) (lgs : List String) :
    RunOutcome :=
  if fs.exonerateGenelist.isEmpty then
    ⟨evs, lgs ++ [noGenesRecoveredMsg], .funcReturn (some 1)⟩
  else
    ⟨evs ++ [.exonerateContigs], lgs, .funcReturn none⟩

/-- The SPAdes assembly phase of `assemble()` (lines 1519-1586). When the
start stage skips past assembly, the existing `*_contigs.fasta` files are
probed (lines 1521-1528) and their absence is fatal with `sys.exit(1)`.
Otherwise reads are optionally merged with bbmerge (fatal on failure, line
1551) and `spades()` is invoked; an empty SPAdes gene list logs an error and
returns (lines 1580-1582). Ending at `assemble_reads` exits with a bare
`sys.exit()` (line 1586). -/
def assemblePhase (a : AssembleArgs) (fs : AssembleFS)
    (evs : List Collaborator) (lgs : List String) : RunOutcome :=
  if 3 ≤ assemble_stages_dict a.start_from then
    if !fs.assembliesExist then
      ⟨evs, lgs ++ [assembliesResumeErrMsg], .sysExitCode 1⟩
    else if a.end_with = .assemble_reads then
      ⟨evs, lgs, .sysExitNoArg⟩
    else
      exoneratePhase fs evs lgs
  else
    let evs1 := if mergedEffective a then evs ++ [.bbmergeMerge] else evs
    if mergedEffective a && !fs.bbmergeOk then
      ⟨evs1, lgs, .sysExitMsg mergeFailedMsg⟩
    else if a.readfilesCount = 1 ∨ a.readfilesCount = 2 then
      let evs2 := evs1 ++ [.spadesAssembly]
      if fs.spadesGenelist.isEmpty then
        ⟨evs2, lgs ++ [noContigsMsg], .funcReturn none⟩
      else if a.end_with = .assemble_reads then
        ⟨evs2, lgs, .sysExitNoArg⟩
      else
        exoneratePhase fs evs2 lgs
    else
      ⟨evs1, lgs ++ [readfileNumberMsg], .funcReturn none⟩

/-- The gene-list computation after read distribution (lines 1503-1513): the
gene directories holding distributed reads are listed; an empty list logs an
error and returns from `assemble()` (lines 1507-1509); ending at
`distribute_reads` exits with a bare `sys.exit()` (line 1513). -/
def genesCheckPhase (a : AssembleArgs) (fs : AssembleFS)
    (evs : List Collaborator) (lgs : List String) : RunOutcome :=
  if fs.genesWithReads.isEmpty then
    ⟨evs, lgs ++ [noGenesWithReadsMsg], .funcReturn none⟩
  else if a.end_with = .distribute_reads then
    ⟨evs, lgs, .sysExitNoArg⟩
  else
    assemblePhase a fs evs lgs

/-- The read distribution phase of `assemble()` (lines 1476-1498). When the
start stage skips past distribution, existing distributed read files are
probed and their absence is fatal with `sys.exit(1)` (lines 1480-1487);
otherwise the distribution collaborator matching the mapping mode is
invoked. -/
def distributePhase (a : AssembleArgs) (fs : AssembleFS)
    (evs : List Collaborator) (lgs : List String) : RunOutcome :=
  if 2 ≤ assemble_stages_dict a.start_from then
    if !fs.distributedFastasExist then
      ⟨evs, lgs ++ [distributedResumeErrMsg], .sysExitCode 1⟩
    else
      genesCheckPhase a fs evs lgs
  else
    let evs1 := evs ++ [if a.bwa then Collaborator.distributeBwa else Collaborator.distributeBlastx]
    genesCheckPhase a fs evs1 lgs

/-- The stop test after read mapping (lines 1468-1470): ending at `map_reads`
exits with a bare `sys.exit()`. -/
def afterMappingPhase (a : AssembleArgs) (fs : AssembleFS)
    (evs : List Collaborator) (lgs : List String) : RunOutcome :=
  if a.end_with = .map_reads then
    ⟨evs, lgs, .sysExitNoArg⟩
  else
    distributePhase a fs evs lgs

/-- The read mapping phase of `assemble()` (lines 1414-1466). When the start
stage skips mapping, the prior mapping output (bam file or blastx file,
matching the mapping mode) is probed and its absence is fatal with
`sys.exit(1)`; otherwise the BWA or BLASTx collaborator is invoked (with an
extra call for an unpaired read file), and a collaborator failure logs an
error and returns from `assemble()` (lines 1448 and 1464). -/
def mappingPhase (a : AssembleArgs) (fs : AssembleFS) : RunOutcome :=
  if a.start_from ≠ .map_reads then
    if a.bwa then
      if !fs.bamfileOk then
        ⟨[], [bamResumeErrMsg a.sample_dir], .sysExitCode 1⟩
      else
        afterMappingPhase a fs [] []
    else if a.blast then
      if !fs.blastxFileOk then
        ⟨[], [blastxResumeErrMsg a.sample_dir], .sysExitCode 1⟩
      else
        afterMappingPhase a fs [] []
    else
      afterMappingPhase a fs [] []
  else
    if a.bwa then
      let evs1 := (if a.unpaired then [Collaborator.bwaMappingUnpaired] else []) ++ [Collaborator.bwaMapping]
      if !fs.bwaMappingSucceeds then
        ⟨evs1, [bwaStepFailedMsg], .funcReturn none⟩
      else
        afterMappingPhase a fs evs1 []
    else if a.blast then
      let evs1 := (if a.unpaired then [Collaborator.blastxMappingUnpaired] else []) ++ [Collaborator.blastxMapping]
      if !fs.blastxMappingSucceeds then
        ⟨evs1, [blastxStepFailedMsg], .funcReturn none⟩
      else
        afterMappingPhase a fs evs1 []
    else
      ⟨[], [], .sysExitMsg cannotDetermineMappingMsg⟩

/-- The stage controller `assemble()` (assemble.py lines 1248-1688), from the
read-file count check onward. The validation order is that of the source:
more than two read files is fatal with a message (lines 1264-1266); a failed
dependency check terminates with a bare `sys.exit()` (line 1311); a start
stage ordered after the end stage logs the stage-order error and terminates
with a bare `sys.exit()` (lines 1321-1329); a missing or empty target file,
read file, or unpaired file is fatal with a message (lines 1342-1362); a
single read file combined with `--unpaired` is fatal with a message (lines
1374-1378). The surviving runs proceed through the four stages. -/
def assemble (a : AssembleArgs) (fs : AssembleFS) : RunOutcome :=
  if 2 < a.readfilesCount then
    ⟨[], [], .sysExitMsg tooManyReadfilesMsg⟩
  else if !fs.depsOk then
    ⟨[], [], .sysExitNoArg⟩
  else if !stageOrderValid a.start_from a.end_with then
    ⟨[], [stageOrderErrText], .sysExitNoArg⟩
  else if !fs.targetfileOk then
    ⟨[], [], .sysExitMsg targetfileMissingMsg⟩
  else if !fs.readfilesOk then
    ⟨[], [], .sysExitMsg readfileMissingMsg⟩
  else if a.unpaired && !fs.unpairedOk then
    ⟨[], [], .sysExitMsg readfileMissingMsg⟩
  else if a.readfilesCount = 1 ∧ a.unpaired then
    ⟨[], [], .sysExitMsg singleReadfileUnpairedMsg⟩
  else
    mappingPhase a fs

/-! ### The mapping backends: `bwa()` (lines 399-482) and `blastx()` (lines 485-547) -/

/-- One external command issued by a mapping backend. -/
inductive MapEvent where
  | makeBwaIndex
  | bwaMem
  | makeBlastDb
  | makeDiamondDb
  | blastxSearch
deriving DecidableEq, Repr

/-- The machine state consulted by `bwa()`. -/
structure BwaEnv where
  /-- `os.path.isfile(targetfile)` (line 415). -/
  targetfileExists : Bool
  /-- `os.path.isfile(f(targetfile_basename).amb)` (line 416): a prebuilt BWA
  index for the target file. -/
  ambIndexExists : Bool
  /-- the `bwa index` subprocess succeeds (lines 431-442). -/
  indexBuildSucceeds : Bool
  /-- the `bwa mem` mapping subprocess succeeds (lines 465-480). -/
  mappingSucceeds : Bool
deriving DecidableEq, Repr

/-- What one call of a mapping backend did: the subprocess commands issued,
the database file finally used, and the returned output path (`none` models
the Python `return None` failure value). -/
structure MapOutcome where
  events : List MapEvent
  db_file : Option String
  output : Option String
deriving DecidableEq, Repr

/-- The `bwa()` function, lines 399-482. With the target file present, a
prebuilt `.amb` index makes the existing database be reused with no
`bwa index` invocation (lines 416-418); otherwise the index is built (lines
419-442, fatal to the call when the subprocess fails). Mapping then runs
`bwa mem`, returning the bam path on success and `None` on failure. -/
def bwa (env : BwaEnv) (targetfile_basename sample_dir : String) : MapOutcome :=
  if !env.targetfileExists then
    ⟨[], none, none⟩
  else if env.ambIndexExists then
    if env.mappingSucceeds then
      ⟨[.bwaMem], some targetfile_basename, some (bamfileName sample_dir)⟩
    else
      ⟨[.bwaMem], some targetfile_basename, none⟩
  else if env.indexBuildSucceeds then
    if env.mappingSucceeds then
      ⟨[.makeBwaIndex, .bwaMem], some targetfile_basename, some (bamfileName sample_dir)⟩
    else
      ⟨[.makeBwaIndex, .bwaMem], some targetfile_basename, none⟩
  else
    ⟨[.makeBwaIndex], some targetfile_basename, none⟩

/-- The machine state consulted by `blastx()`. -/
structure BlastxEnv where
  /-- `os.path.isfile(targetfile)` (line 509). -/
  targetfileExists : Bool
  /-- `os.path.isfile(f(targetfile_basename).psq)` (line 510): a prebuilt
  BLAST protein database. -/
  psqExists : Bool
  /-- `os.path.isfile(f(targetfile_basename).dmnd)` (line 513): a prebuilt
  DIAMOND database. -/
  dmndExists : Bool
  /-- the `--diamond` flag. -/
  diamond : Bool
  /-- the `makeblastdb` or `diamond makedb` subprocess succeeds (lines 533-544). -/
  dbBuildSucceeds : Bool
  /-- the BLASTx or DIAMOND searches succeed. -/
  searchSucceeds : Bool
deriving DecidableEq, Repr

/-- The `blastx()` function, lines 485-547 (and the search that follows).
With the target file present, a prebuilt `.psq` BLAST database (line 510) or
a prebuilt `.dmnd` DIAMOND database (line 513) makes the existing database be
reused with no database build; otherwise `makeblastdb` or `diamond makedb`
is invoked (fatal to the call when the subprocess fails). The search then
runs, returning the blastx output path on success and `None` on failure. -/
def blastx (env : BlastxEnv) (targetfile_basename sample_dir : String) : MapOutcome :=
  if !env.targetfileExists then
    ⟨[], none, none⟩
  else if env.psqExists || env.dmndExists then
    if env.searchSucceeds then
      ⟨[.blastxSearch], some targetfile_basename, some (blastxFileName sample_dir)⟩
    else
      ⟨[.blastxSearch], some targetfile_basename, none⟩
  else
    let build := if env.diamond then MapEvent.makeDiamondDb else MapEvent.makeBlastDb
    if env.dbBuildSucceeds then
      if env.searchSucceeds then
        ⟨[build, .blastxSearch], some targetfile_basename, some (blastxFileName sample_dir)⟩
      else
        ⟨[build, .blastxSearch], some targetfile_basename, none⟩
    else
      ⟨[build], some targetfile_basename, none⟩

/-! ### The per-gene worker: `exonerate()` (lines 853-1027) -/

/-- The value bound to `intronerate_success` inside `exonerate()`: the Python
string `N/A` (line 953), `True` (line 999) or `False` (line 1004). -/
inductive IntronerateOutcome where
  | notApplicable
  | succeeded
  | failed
deriving DecidableEq, Repr

/-- The terminal state of one scheduled future as seen by the result
collection loop of `exonerate_multiprocessing` (lines 1143-1183):
 - `result3` is the three-element tuple `(gene_name, None, proc_run_time)`
   returned on a missing input file (line 950);
 - `result5` is the five-element tuple returned by the two normal paths
   (lines 1018 and 1023-1027);
 - `timeout` is a `TimeoutError` raised by `future.result()` after the
   per-task wall-clock timeout expired and pebble cancelled the task;
 - `cancelled` is a `CancelledError`;
 - `raised` is any other exception raised by the task. -/
inductive FutureOutcome where
  | result3 (gene_name : String) (run_time : Nat)
  | result5 (gene_name : String) (prot_length : Option Nat) (run_time : Nat)
      (stop_codons : Bool) (intronerate_success : IntronerateOutcome)
  | timeout
  | cancelled
  | raised
deriving DecidableEq, Repr

/-- The per-gene machine state consulted by one `exonerate()` worker. -/
structure GeneEnv where
  /-- the SPAdes contigs file `f(gene)/(gene)_contigs.fasta` is readable
  (lines 930-934 succeed for it). -/
  contigsFileExists : Bool
  /-- the best protein reference `f(gene)/(gene)_target.fasta` is readable. -/
  targetFileExists : Bool
  /-- `initial_exonerate` produced a truthy text output (line 960). -/
  initialExonerateOutput : Bool
  /-- `parse_exonerate_and_get_stitched_contig` returned a truthy result. -/
  exonerateResultTruthy : Bool
  /-- the length of `exonerate_result.stitched_contig_seqrecord`; `none`
  models a `None` attribute, and a length of zero is a falsy SeqRecord. -/
  stitchedContigLen : Option Nat
  /-- `exonerate_result.stop_codons_in_seqrecord_bool`. -/
  stopCodons : Bool
  /-- `exonerate_result.hits_filtered_by_pct_similarity_dict` is truthy
  (line 985). -/
  hitsFilteredNonempty : Bool
  /-- the `intronerate()` call raises an exception (lines 991-1004). -/
  intronerateRaises : Bool
deriving DecidableEq, Repr

/-- Truthiness of `prot_length` and of the stitched SeqRecord (line 1013):
`None` and a zero-length record are falsy. -/
def stitchedTruthy : Option Nat → Bool
  | none => false
  | some len => !(len == 0)

/-- The worker body `exonerate()` (lines 853-1027), as the value the
scheduled future will carry. A `FileNotFoundError` while reading the SPAdes
contigs or the best protein reference is caught and turned into the
three-element return of line 950 - a value, not an exception. Otherwise the
Exonerate search and stitching run; `intronerate` runs only when requested
and when filtered hits exist, and an exception inside it is caught and
recorded as `intronerate_success = False` (lines 1001-1004). The worker then
returns the five-element tuple of line 1018 (falsy stitching result) or of
lines 1023-1027. -/
def exonerate (env : GeneEnv) (gene_name : String) (no_intronerate : Bool)
    (proc_run_time : Nat) : FutureOutcome :=
  if !(env.contigsFileExists && env.targetFileExists) then
    .result3 gene_name proc_run_time
  else
    let intronerate_success :=
      if env.initialExonerateOutput && !no_intronerate && env.exonerateResultTruthy
          && env.hitsFilteredNonempty then
        (if env.intronerateRaises then IntronerateOutcome.failed else .succeeded)
      else
        IntronerateOutcome.notApplicable
    if !env.initialExonerateOutput || !env.exonerateResultTruthy
        || !(stitchedTruthy env.stitchedContigLen) then
      .result5 gene_name none proc_run_time false intronerate_success
    else
      .result5 gene_name env.stitchedContigLen proc_run_time env.stopCodons
        intronerate_success

/-! ### The concurrent task engine: `exonerate_multiprocessing` (lines 1030-1245) -/

/-- The observable state accumulated by the result collection loop (lines
1139-1183): the success aggregate written to `genes_with_seqs.txt`, the stop
codon report file, the three warning buckets, the blocks of worker log lines
re-emitted into the main log, and the worker log files deleted. -/
structure EngineState where
  genes_with_seqs : List (String × Nat)
  genes_with_stops : List String
  genes_with_failed_intronerate : List String
  genes_cancelled_due_to_timeout : List String
  genes_cancelled_due_to_errors : List String
  main_log : List (String × List String)
  deleted_logs : List String
deriving DecidableEq, Repr

/-- The state at the top of the collection loop. -/
def initialEngineState : EngineState := ⟨[], [], [], [], [], [], []⟩

/-- One iteration of the `for future in as_completed(futures_list)` loop
(lines 1143-1183), processing the future scheduled for gene `fut.1` whose
terminal state is `fut.2`; `gene_logs g` is the content of the isolated log
file of gene `g`.

A `result5` tuple unpacks into the five variables of line 1145; with a truthy
gene name the isolated gene log is read in full, each line re-emitted to the
main logger (lines 1147-1154), and the log file deleted unless
`keep_intermediate_files` is set (lines 1155-1156); a truthy gene name and
protein length append one line to `genes_with_seqs.txt` (lines 1159-1160); a
truthy stop codon flag appends the gene to the stops file (lines 1162-1163);
an intronerate value that is neither the string `N/A` (truthy) nor `True`
appends the scheduled gene to the failed-intronerate bucket (lines
1166-1171).

A `result3` tuple makes the five-variable unpacking at lines 1145-1146 raise
a `ValueError` inside the `try`, which the `except Exception` arm catches
(lines 1179-1183): the gene lands in the error bucket and none of the
success-path effects happen. A `TimeoutError` puts the gene in the timeout
bucket (lines 1173-1176); a `CancelledError` is only logged (lines
1177-1178); any other exception puts the gene in the error bucket. -/
def processFuture (keep_intermediate_files : Bool) (gene_logs : String → List String)
    (st : EngineState) (fut : String × FutureOutcome) : EngineState :=
  match fut with
  | (n, .result5 g prot_length _ stop_codons intronerate_success) =>
      { st with
        main_log := st.main_log ++ (if g = "" then [] else [(g, gene_logs g)]),
        deleted_logs := st.deleted_logs ++
          (if g = "" ∨ keep_intermediate_files = true then [] else [g]),
        genes_with_seqs := st.genes_with_seqs ++
          (match prot_length with
            | some len => if g = "" ∨ len = 0 then [] else [(g, len)]
            | none => []),
        genes_with_stops := st.genes_with_stops ++ (if stop_codons then [g] else []),
        genes_with_failed_intronerate := st.genes_with_failed_intronerate ++
          (if intronerate_success = .failed then [n] else []) }
  | (n, .result3 _ _) =>
      { st with genes_cancelled_due_to_errors := st.genes_cancelled_due_to_errors ++ [n] }
  | (n, .timeout) =>
      { st with genes_cancelled_due_to_timeout := st.genes_cancelled_due_to_timeout ++ [n] }
  | (_, .cancelled) => st
  | (n, .raised) =>
      { st with genes_cancelled_due_to_errors := st.genes_cancelled_due_to_errors ++ [n] }

/-- The result aggregation of `exonerate_multiprocessing` (lines 1098-1185):
every scheduled future is processed by the collection loop in completion
order. `futures` lists, in completion order, each scheduled gene name paired
with the terminal state its future reached. -/
def exonerate_multiprocessing (keep_intermediate_files : Bool)
    (gene_logs : String → List String)
    (futures : List (String × FutureOutcome)) : EngineState :=
  futures.foldl (processFuture keep_intermediate_files gene_logs) initialEngineState

/-- The warning block for failed intronerate runs at batch end (lines
1187-1195): nothing when the bucket is empty, otherwise a warning header
followed by one indented line per affected gene. -/
def intronerateWarningHeader : String :=
  "[WARNING]: The Intronerate step of the pipeline failed for the following genes:"

def warningIndentText : String :=
  "           "

def intronerateWarningReport (genes : List String) : List String :=
  if genes.isEmpty then []
  else intronerateWarningHeader :: genes.map (fun g => warningIndentText ++ g)

/-! ### The shared progress counter (lines 898-946 and 1008-1011)

Both return paths of the worker body increment the shared counter exactly
once, inside `with lock:` (lines 943-946 for the missing-input path, lines
1008-1011 for the common path). A worker whose task the engine cancels (on
timeout expiry) or that dies on an uncaught error executes only a prefix of
the body: when the cut lands before the lock block, the increment never
runs. -/

/-- Lock-related events a worker process emits, in order. -/
inductive LockEvent where
  | acquire
  | increment
  | release
deriving DecidableEq, Repr

/-- How far one scheduled worker got before its future turned terminal. -/
inductive TaskExecution where
  /-- the body ran to its `return`: the future completed with a result. -/
  | ranToCompletion
  /-- the worker process was killed (timeout cancellation or crash) before
  reaching the `with lock:` block. -/
  | killedBeforeIncrement
  /-- the worker process was killed after the `with lock:` block completed. -/
  | killedAfterIncrement
deriving DecidableEq, Repr

/-- The lock events the worker emitted: `with lock: counter.value += 1`
compiles to acquire, increment, release. -/
def taskLockEvents : TaskExecution → List LockEvent
  | .ranToCompletion => [.acquire, .increment, .release]
  | .killedBeforeIncrement => []
  | .killedAfterIncrement => [.acquire, .increment, .release]

/-- How many times the worker incremented the shared counter. -/
def taskIncrements (t : TaskExecution) : Nat :=
  (taskLockEvents t).count .increment

/-- The value of the shared counter after every future of the batch reached
a terminal state: the sum of the increments the workers performed. -/
def counterAfterBatch (ts : List TaskExecution) : Nat :=
  (ts.map taskIncrements).sum

/-- Checks that every `increment` in an event list happens while the lock is
held, scanning with the current held state. -/
def incrementsUnderLock : Bool → List LockEvent → Bool
  | _, [] => true
  | _, .acquire :: rest => incrementsUnderLock true rest
  | _, .release :: rest => incrementsUnderLock false rest
  | held, .increment :: rest => held && incrementsUnderLock held rest

/-! ### Interrupt cleanup (lines 1225-1245)

The `except KeyboardInterrupt` handler: first `signal.signal(SIGINT,
SIG_IGN)` suppresses further interrupt delivery; `set(pid_list)` collects the
distinct worker process ids ever registered (each worker appended its pid at
line 900); then `psutil.Process(process_pid)` is constructed for each of
them, with NO surrounding try/except - a pid no longer present in the
process table makes this raise `psutil.NoSuchProcess` out of the handler,
aborting cleanup before any descendant is enumerated or killed (the
interpreter then exits non-zero with a traceback instead of reaching the
`sys.exit(1)` of line 1245). When every registered pid is still present, a
loop enumerates, for every tracked pid, its descendant processes
(`parent.children(recursive=True)`) and kills each (`child.kill()`, with
`psutil.NoSuchProcess` caught and ignored), repeating until a full pass
enumerates zero descendants; finally `sys.exit(1)`.

The operating-system state is modelled as a static spawn forest `edges`
(child pid, parent pid) plus the pids currently running and the pids that
exited but are still in the process table as zombies. Enumeration follows
the semantics of `children(recursive=True)`: the children of an exited
process (running no longer) are reparented away, so the walk descends only
through running processes, and it reports any child still present in the
table (running or zombie). A process killed by the handler is assumed to be
promptly reaped by its waiting parent, leaving the table. -/

/-- The operating-system process state seen by the interrupt handler. -/
structure ProcTable where
  /-- the spawn forest: (child pid, parent pid). -/
  edges : List (Nat × Nat)
  /-- pids of processes currently running, their children still attached. -/
  running : List Nat
  /-- pids of processes that exited but were not reaped yet. -/
  zombies : List Nat
deriving DecidableEq, Repr

/-- The pids present in the process table: `psutil.Process(p)` succeeds
exactly for these. -/
def ProcTable.table (w : ProcTable) : List Nat :=
  w.running ++ w.zombies

/-- The children of `p` that psutil still reports: spawn children of `p`
that are present in the process table. -/
def psChildPids (edges : List (Nat × Nat)) (table : List Nat) (p : Nat) :
    List Nat :=
  ((edges.filter (fun e => e.2 == p)).map Prod.fst).filter
    (fun c => decide (c ∈ table))

/-- The recursive enumeration frontier by frontier: only running processes
still hold their children (an exited process saw its children reparented
away), and each reported child must still be in the table. -/
def enumFrom (edges : List (Nat × Nat)) (table running : List Nat) :
    Nat → List Nat → List Nat
  | 0, _ => []
  | fuel + 1, frontier =>
      let kids := (frontier.filter (fun p => decide (p ∈ running))).flatMap
        (psChildPids edges table)
      kids ++ enumFrom edges table running fuel kids

/-- The model of `parent.children(recursive=True)` for the process with pid
`p`: walk the spawn edges to the depth of the edge count (a spawn chain uses
one distinct edge per level), descending only through running processes. -/
def children_recursive (w : ProcTable) (p : Nat) : List Nat :=
  enumFrom w.edges w.table w.running (w.edges.length + 1) [p]

/-- The model of `try: child.kill() except psutil.NoSuchProcess: pass`
(lines 1239-1242) followed by the prompt reap by the waiting parent: the
process leaves the table; an attempt on a process that already left the
table changes nothing and is not an error. -/
def kill_child (w : ProcTable) (q : Nat) : ProcTable :=
  ⟨w.edges, w.running.filter (fun r => decide (r ≠ q)),
    w.zombies.filter (fun r => decide (r ≠ q))⟩

/-- One pass of the `while True:` loop (lines 1233-1244): enumerate the
descendants of every tracked parent, kill each one, and report the
enumerated pids (whose count is the `count` variable). -/
def killPass (roots : List Nat) (w : ProcTable) : ProcTable × List Nat :=
  let victims := roots.flatMap (children_recursive w)
  (victims.foldl kill_child w, victims)

/-- The kill loop, fuelled: repeat `killPass` until a pass enumerates zero
descendants (`if count == 0: break`). Returns the final state, the
concatenated kill trace, and whether the loop reached its exit condition
within the fuel. -/
def killLoop (roots : List Nat) : Nat → ProcTable → ProcTable × List Nat × Bool
  | 0, w => (w, [], false)
  | fuel + 1, w =>
      let pass := killPass roots w
      if pass.2.isEmpty then
        (w, [], true)
      else
        let rest := killLoop roots fuel pass.1
        (rest.1, pass.2 ++ rest.2.1, rest.2.2)

/-- What the interrupt handler did. -/
structure CleanupOutcome where
  /-- further SIGINT delivery was suppressed before any other action. -/
  sigintSuppressedFirst : Bool
  /-- the unguarded `psutil.Process(process_pid)` of line 1230 raised
  `psutil.NoSuchProcess` out of the handler: cleanup aborted with a
  traceback before any kill. -/
  uncaughtNoSuchProcess : Bool
  /-- every pid the handler attempted to kill, in order. -/
  killed : List Nat
  /-- the process state after the handler. -/
  finalWorld : ProcTable
  /-- the loop ran and reached its zero-descendants exit condition. -/
  loopCompleted : Bool
  /-- the process exit status: the `sys.exit(1)` of line 1245 on the normal
  path, and the interpreter status 1 for an uncaught exception on the abort
  path. -/
  exitStatus : Nat
deriving DecidableEq, Repr

/-- The `except KeyboardInterrupt` handler (lines 1225-1245). `pid_list` is
the shared append-only worker pid record; the handler works on its distinct
set. If any registered pid is gone from the process table, the
`psutil.Process` construction of line 1230 raises before the logging and the
kill loop, so nothing is killed. Otherwise the loop runs; a kill pass
removes at least one table entry or stops the loop, so a fuel of one more
than the table size always reaches the exit condition. -/
def interruptCleanup (w : ProcTable) (pid_list : List Nat) : CleanupOutcome :=
  let pid_set := pid_list.dedup
  if pid_set.all (fun p => decide (p ∈ w.table)) then
    let r := killLoop pid_set (w.table.length + 1) w
    ⟨true, false, r.2.1, r.1, r.2.2, 1⟩
  else
    ⟨true, true, [], w, false, 1⟩

/-! ### Per-future contribution views of the collection loop

Each field accumulated by `processFuture` grows by a per-future contribution
that depends only on the future itself; the functions below spell those
contributions out, one per field, and are related to the loop by
`exonerate_multiprocessing_eq` below. -/

/-- The lines the future contributes to `genes_with_seqs.txt` (lines 1159-1160). -/
def seqsOf : String × FutureOutcome → List (String × Nat)
  | (_, .result5 g (some len) _ _ _) => if g = "" ∨ len = 0 then [] else [(g, len)]
  | _ => []

/-- The lines the future contributes to the stop codon report (lines 1162-1163). -/
def stopsOf : String × FutureOutcome → List String
  | (_, .result5 g _ _ stop_codons _) => if stop_codons then [g] else []
  | _ => []

/-- The genes the future contributes to the failed-intronerate bucket (lines 1166-1171). -/
def intrOf : String × FutureOutcome → List String
  | (n, .result5 _ _ _ _ intronerate_success) =>
      if intronerate_success = .failed then [n] else []
  | _ => []

/-- The genes the future contributes to the timeout bucket (lines 1173-1176). -/
def timeoutOf : String × FutureOutcome → List String
  | (n, .timeout) => [n]
  | _ => []

/-- The genes the future contributes to the error bucket (lines 1179-1183);
a three-element result lands here through the failed five-way unpacking. -/
def errorsOf : String × FutureOutcome → List String
  | (n, .result3 _ _) => [n]
  | (n, .raised) => [n]
  | _ => []

/-- The log block the future contributes to the main log (lines 1147-1154). -/
def mainLogOf (gene_logs : String → List String) :
    String × FutureOutcome → List (String × List String)
  | (_, .result5 g _ _ _ _) => if g = "" then [] else [(g, gene_logs g)]
  | _ => []

/-- The log files the future causes to be deleted (lines 1155-1156). -/
def deletedOf (keep_intermediate_files : Bool) : String × FutureOutcome → List String
  | (_, .result5 g _ _ _ _) =>
      if g = "" ∨ keep_intermediate_files = true then [] else [g]
  | _ => []

/-- A future that completed cleanly: a five-element result whose gene name
matches the scheduled gene, with a non-empty name and a non-zero protein
length. -/
def completesCleanly : String × FutureOutcome → Bool
  | (n, .result5 g (some len) _ _ _) => (g == n) && !(n == "") && !(len == 0)
  | _ => false

/-! ### Concrete inputs used by the witnesses and counterexamples -/

/-- Gene names of the worked example of the specification. -/
def geneA : String := "geneA"

def geneB : String := "geneB"

def geneC : String := "geneC"

def geneD : String := "geneD"

def geneE : String := "geneE"

/-- A machine state in which every probed file exists and every external
step succeeds. -/
def fsAllGood : AssembleFS :=
  ⟨true, true, true, true, true, true, true, true, true, [geneA], true, [geneA], true, [geneA]⟩

/-- `fsAllGood` except that the prior BWA bam file is absent. -/
def fsNoBam : AssembleFS :=
  ⟨true, true, true, true, false, true, true, true, true, [geneA], true, [geneA], true, [geneA]⟩

/-- `fsAllGood` except that no distributed read files exist. -/
def fsNoFastas : AssembleFS :=
  ⟨true, true, true, true, true, true, true, true, false, [geneA], true, [geneA], true, [geneA]⟩

/-- `fsAllGood` except that no SPAdes assembly files exist. -/
def fsNoAssemblies : AssembleFS :=
  ⟨true, true, true, true, true, true, true, true, true, [geneA], true, [geneA], false, [geneA]⟩

/-- `fsAllGood` except that no gene received distributed reads. -/
def fsNoGenesWithReads : AssembleFS :=
  ⟨true, true, true, true, true, true, true, true, true, [], true, [geneA], true, [geneA]⟩

/-- `fsAllGood` except that `exonerate_genelist.txt` is empty. -/
def fsNoExonerateGenes : AssembleFS :=
  ⟨true, true, true, true, true, true, true, true, true, [geneA], true, [geneA], true, []⟩

/-- Arguments in BWA mode with paired reads, parametrised by stage range. -/
def argsBwa (start_from end_with : Stage) : AssembleArgs :=
  ⟨start_from, end_with, true, false, false, false, 2, "EG30"⟩

/-- The isolated per-gene log contents used in the log-aggregation
counterexample: gene `geneC` wrote one line. -/
def cexGeneLogs : String → List String :=
  fun g => if g = geneC then ["Exonerate hits trimmed for " ++ geneC] else []

/-- A worker-side machine state whose SPAdes contigs file is missing. -/
def envMissingContigs : GeneEnv :=
  ⟨false, true, true, true, some 3, false, true, false⟩

/-- A worker-side machine state in which stitching succeeds with a sequence
of length 312 and the intronerate step raises. -/
def envIntronerateFails : GeneEnv :=
  ⟨true, true, true, true, some 312, false, true, true⟩

/-- A worker-side machine state in which everything succeeds (sequence
length 210, intronerate succeeds). -/
def envAllGood : GeneEnv :=
  ⟨true, true, true, true, some 210, false, true, false⟩

/-- A `bwa()` machine state with the target file and a prebuilt `.amb`
index present. -/
def bwaEnvIndexed : BwaEnv := ⟨true, true, true, true⟩

/-- A `blastx()` machine state with the target file and a prebuilt `.psq`
BLAST database present. -/
def blastxEnvIndexed : BlastxEnv := ⟨true, true, false, false, true, true⟩

/-- Isolated per-gene logs used by witnesses: every gene wrote one line. -/
def plainGeneLogs : String → List String :=
  fun g => ["Exonerate processing for " ++ g]

/-- The worked batch of the specification: five genes, `geneC` times out,
the other four complete cleanly. -/
def exampleBatch : List (String × FutureOutcome) :=
  [(geneA, .result5 geneA (some 100) 1 false .notApplicable),
   (geneB, .result5 geneB (some 200) 1 false .succeeded),
   (geneC, .timeout),
   (geneD, .result5 geneD (some 150) 1 false .notApplicable),
   (geneE, .result5 geneE (some 175) 1 false .notApplicable)]

/-- A process state with one running worker (pid 10) whose child 11 spawned
a grandchild 12, all running; a second worker (pid 20) was registered but
has already exited and been reaped, so it is absent from the table - the
state left behind when the pebble timeout killed that worker. -/
def cexWorld : ProcTable :=
  ⟨[(11, 10), (12, 11)], [10, 11, 12], []⟩

/-! ## Theorems -/

/-! ### The collection loop as per-future contributions -/

/-- Each field of the loop state grows by the per-future contribution of the
processed future; folding from any state appends the concatenated
contributions fieldwise. -/
theorem engineLoop_eq (keep_intermediate_files : Bool)
    (gene_logs : String → List String) (st : EngineState)
    (futures : List (String × FutureOutcome)) :
    futures.foldl (processFuture keep_intermediate_files gene_logs) st =
      ⟨st.genes_with_seqs ++ futures.flatMap seqsOf,
       st.genes_with_stops ++ futures.flatMap stopsOf,
       st.genes_with_failed_intronerate ++ futures.flatMap intrOf,
       st.genes_cancelled_due_to_timeout ++ futures.flatMap timeoutOf,
       st.genes_cancelled_due_to_errors ++ futures.flatMap errorsOf,
       st.main_log ++ futures.flatMap (mainLogOf gene_logs),
       st.deleted_logs ++ futures.flatMap (deletedOf keep_intermediate_files)⟩ := by
  induction futures generalizing st with
  | nil => cases st; simp
  | cons f fs ih =>
      obtain ⟨n, o⟩ := f
      cases st
      rw [List.foldl_cons, ih]
      cases o with
      | result3 g rt =>
          simp [processFuture, seqsOf, stopsOf, intrOf, timeoutOf, errorsOf,
            mainLogOf, deletedOf, List.append_assoc]
      | result5 g pl rt sc intr =>
          rcases pl with _ | len <;>
            simp [processFuture, seqsOf, stopsOf, intrOf, timeoutOf, errorsOf,
              mainLogOf, deletedOf, List.append_assoc]
      | timeout =>
          simp [processFuture, seqsOf, stopsOf, intrOf, timeoutOf, errorsOf,
            mainLogOf, deletedOf, List.append_assoc]
      | cancelled =>
          simp [processFuture, seqsOf, stopsOf, intrOf, timeoutOf, errorsOf,
            mainLogOf, deletedOf, List.append_assoc]
      | raised =>
          simp [processFuture, seqsOf, stopsOf, intrOf, timeoutOf, errorsOf,
            mainLogOf, deletedOf, List.append_assoc]

/-- The whole collection loop, from the empty state. -/
theorem exonerate_multiprocessing_eq (keep_intermediate_files : Bool)
    (gene_logs : String → List String)
    (futures : List (String × FutureOutcome)) :
    exonerate_multiprocessing keep_intermediate_files gene_logs futures =
      ⟨futures.flatMap seqsOf, futures.flatMap stopsOf, futures.flatMap intrOf,
       futures.flatMap timeoutOf, futures.flatMap errorsOf,
       futures.flatMap (mainLogOf gene_logs),
       futures.flatMap (deletedOf keep_intermediate_files)⟩ := by
  unfold exonerate_multiprocessing
  rw [engineLoop_eq]
  simp [initialEngineState]

/-- Bucket characterisation for a batch whose futures either time out or
complete cleanly. -/
theorem timeoutBatch_buckets
    (futures : List (String × FutureOutcome))
    (H : ∀ p ∈ futures, p.2 = FutureOutcome.timeout ∨ completesCleanly p = true) :
    futures.flatMap timeoutOf
        = (futures.filter (fun p => decide (p.2 = FutureOutcome.timeout))).map Prod.fst
    ∧ (futures.flatMap seqsOf).map Prod.fst
        = (futures.filter (fun p => decide (¬ p.2 = FutureOutcome.timeout))).map Prod.fst
    ∧ futures.flatMap errorsOf = [] := by
  induction futures with
  | nil => simp
  | cons f fs ih =>
      obtain ⟨h1, h2, h3⟩ := ih (fun p hp => H p (List.mem_cons_of_mem f hp))
      have hf := H f (List.mem_cons_self f fs)
      obtain ⟨n, o⟩ := f
      rcases hf with htm | hcc
      · simp only at htm
        subst htm
        simp [timeoutOf, seqsOf, errorsOf, h1, h2, h3]
      · cases o with
        | result3 g rt => simp [completesCleanly] at hcc
        | timeout => simp [completesCleanly] at hcc
        | cancelled => simp [completesCleanly] at hcc
        | raised => simp [completesCleanly] at hcc
        | result5 g pl rt sc intr =>
            rcases pl with _ | len
            · simp [completesCleanly] at hcc
            · simp only [completesCleanly, Bool.and_eq_true, beq_iff_eq,
                Bool.not_eq_eq_eq_not, Bool.not_true, beq_eq_false_iff_ne,
                ne_eq] at hcc
              obtain ⟨⟨hg, hn⟩, hl⟩ := hcc
              subst hg
              simp [timeoutOf, seqsOf, errorsOf, h1, h2, h3, hn, hl]

/-- C1: for a batch of scheduled gene tasks with a per-task timeout, when
exactly the tasks of some subset time out and the rest complete cleanly, the
engine records exactly the timed-out subset in the timeout bucket, every
other task appears in the success aggregate `genes_with_seqs`, and the error
bucket stays empty - the batch is never cancelled as a whole. -/
theorem engine_isolates_timed_out_tasks
    (keep_intermediate_files : Bool) (gene_logs : String → List String)
    (futures : List (String × FutureOutcome))
    (H : ∀ p ∈ futures, p.2 = FutureOutcome.timeout ∨ completesCleanly p = true) :
    (exonerate_multiprocessing keep_intermediate_files gene_logs
        futures).genes_cancelled_due_to_timeout
        = (futures.filter (fun p => decide (p.2 = FutureOutcome.timeout))).map Prod.fst
    ∧ (exonerate_multiprocessing keep_intermediate_files gene_logs
        futures).genes_with_seqs.map Prod.fst
        = (futures.filter (fun p => decide (¬ p.2 = FutureOutcome.timeout))).map Prod.fst
    ∧ (exonerate_multiprocessing keep_intermediate_files gene_logs
        futures).genes_cancelled_due_to_errors = [] := by
  rw [exonerate_multiprocessing_eq]
  exact timeoutBatch_buckets futures H

/-- Witness for C1 at the worked example of the specification: five genes,
`geneC` configured to exceed the timeout, the other four completing. -/
theorem engine_isolates_timed_out_tasks_witness :
    (∀ p ∈ exampleBatch,
        p.2 = FutureOutcome.timeout ∨ completesCleanly p = true)
    ∧ (exonerate_multiprocessing false plainGeneLogs
        exampleBatch).genes_cancelled_due_to_timeout = [geneC]
    ∧ (exonerate_multiprocessing false plainGeneLogs
        exampleBatch).genes_with_seqs.map Prod.fst = [geneA, geneB, geneD, geneE]
    ∧ (exonerate_multiprocessing false plainGeneLogs
        exampleBatch).genes_cancelled_due_to_errors = [] := by
  have h := engine_isolates_timed_out_tasks false plainGeneLogs exampleBatch
    (by decide)
  refine ⟨by decide, ?_, ?_, h.2.2⟩
  · rw [h.1]; decide
  · rw [h.2.1]; decide

/-- C2: a gene task whose expected per-unit input file (SPAdes contigs or
best protein reference) is missing returns to the engine as the structured
three-element result of line 950 - a value, never an exception crossing the
task boundary - and the batch goes on collecting every other result: the
success aggregate and the timeout bucket are exactly those of the batch
without this unit, and the unit itself is recorded in the error bucket
(through the failed five-way unpacking at lines 1145-1146, caught inside the
collection loop). -/
theorem missing_input_is_structured_failure
    (env : GeneEnv) (g : String) (no_intronerate : Bool) (rt : Nat)
    (hmiss : env.contigsFileExists = false ∨ env.targetFileExists = false)
    (keep_intermediate_files : Bool) (gene_logs : String → List String)
    (before after : List (String × FutureOutcome)) :
    exonerate env g no_intronerate rt = FutureOutcome.result3 g rt
    ∧ (exonerate_multiprocessing keep_intermediate_files gene_logs
          (before ++ (g, exonerate env g no_intronerate rt) :: after)).genes_with_seqs
        = (exonerate_multiprocessing keep_intermediate_files gene_logs
            (before ++ after)).genes_with_seqs
    ∧ (exonerate_multiprocessing keep_intermediate_files gene_logs
          (before ++ (g, exonerate env g no_intronerate rt) :: after)).genes_cancelled_due_to_timeout
        = (exonerate_multiprocessing keep_intermediate_files gene_logs
            (before ++ after)).genes_cancelled_due_to_timeout
    ∧ (exonerate_multiprocessing keep_intermediate_files gene_logs
          (before ++ (g, exonerate env g no_intronerate rt) :: after)).genes_cancelled_due_to_errors
        = (exonerate_multiprocessing keep_intermediate_files gene_logs
            before).genes_cancelled_due_to_errors
          ++ g :: (exonerate_multiprocessing keep_intermediate_files gene_logs
              after).genes_cancelled_due_to_errors := by
  have hres : exonerate env g no_intronerate rt = FutureOutcome.result3 g rt := by
    rcases hmiss with h | h <;> simp [exonerate, h]
  refine ⟨hres, ?_, ?_, ?_⟩ <;>
    simp only [exonerate_multiprocessing_eq] <;>
    simp [hres, seqsOf, timeoutOf, errorsOf]

/-- Witness for C2: the SPAdes contigs file for `geneB` is missing in a
three-unit batch; the other two units are still collected. -/
theorem missing_input_is_structured_failure_witness :
    (envMissingContigs.contigsFileExists = false ∨
      envMissingContigs.targetFileExists = false)
    ∧ exonerate envMissingContigs geneB false 2 = FutureOutcome.result3 geneB 2
    ∧ (exonerate_multiprocessing false plainGeneLogs
          ([(geneA, .result5 geneA (some 100) 1 false .notApplicable)]
            ++ (geneB, exonerate envMissingContigs geneB false 2)
              :: [(geneC, .result5 geneC (some 300) 1 false .notApplicable)])).genes_with_seqs
        = (exonerate_multiprocessing false plainGeneLogs
            ([(geneA, .result5 geneA (some 100) 1 false .notApplicable)]
              ++ [(geneC, .result5 geneC (some 300) 1 false .notApplicable)])).genes_with_seqs := by
  have h := missing_input_is_structured_failure envMissingContigs geneB false 2
    (Or.inl rfl) false plainGeneLogs
    [(geneA, .result5 geneA (some 100) 1 false .notApplicable)]
    [(geneC, .result5 geneC (some 300) 1 false .notApplicable)]
  exact ⟨Or.inl rfl, h.1, h.2.1⟩

/-- The main-log blocks and the deleted log files, characterised: exactly
the futures that completed with the five-element result and a truthy gene
name contribute, each as one contiguous block of its full isolated log, in
completion order; the deleted files are the same genes unless
`keep_intermediate_files` is set. -/
theorem relogBatch_mainLog
    (keep_intermediate_files : Bool) (gene_logs : String → List String)
    (futures : List (String × FutureOutcome)) :
    futures.flatMap (mainLogOf gene_logs)
        = futures.filterMap (fun p =>
            match p.2 with
            | .result5 g _ _ _ _ => if g = "" then none else some (g, gene_logs g)
            | _ => none)
    ∧ futures.flatMap (deletedOf keep_intermediate_files)
        = (if keep_intermediate_files then []
            else (futures.flatMap (mainLogOf gene_logs)).map Prod.fst) := by
  induction futures with
  | nil => simp
  | cons f fs ih =>
      obtain ⟨h1, h2⟩ := ih
      obtain ⟨n, o⟩ := f
      cases o with
      | result5 g pl rt sc intr =>
          by_cases hg : g = "" <;>
            cases keep_intermediate_files <;>
              simp_all [mainLogOf, deletedOf]
      | result3 g rt => simp_all [mainLogOf, deletedOf]
      | timeout => simp_all [mainLogOf, deletedOf]
      | cancelled => simp_all [mainLogOf, deletedOf]
      | raised => simp_all [mainLogOf, deletedOf]

/-- C6 counterexample: a unit whose future reaches the terminal state
timed-out has a non-empty isolated log, yet the engine re-emits none of its
lines into the main log and does not delete the log file even though
keep-intermediate-files is unset - so not every terminal future gets its log
re-emitted, only completed ones do. -/
theorem relog_skipped_for_timed_out_unit :
    (exonerate_multiprocessing false cexGeneLogs
        [(geneC, FutureOutcome.timeout)]).main_log = []
    ∧ cexGeneLogs geneC ≠ []
    ∧ (exonerate_multiprocessing false cexGeneLogs
        [(geneC, FutureOutcome.timeout)]).deleted_logs = [] := by
  decide

/-- C6 amended: for every gene task whose future completes with the
five-element worker result carrying a truthy gene name, the engine re-emits
that unit's isolated log in full into the main log as one contiguous block
(original within-unit order preserved, no cross-unit interleaving, each
unit's lines exactly once), and deletes the isolated log file unless the
keep-intermediate-files option is set; futures that time out, are cancelled,
raise, or return the three-element missing-input result contribute no block
and no deletion. -/
theorem relog_on_completed_futures
    (keep_intermediate_files : Bool) (gene_logs : String → List String)
    (futures : List (String × FutureOutcome)) :
    (exonerate_multiprocessing keep_intermediate_files gene_logs futures).main_log
        = futures.filterMap (fun p =>
            match p.2 with
            | .result5 g _ _ _ _ => if g = "" then none else some (g, gene_logs g)
            | _ => none)
    ∧ (exonerate_multiprocessing keep_intermediate_files gene_logs futures).deleted_logs
        = (if keep_intermediate_files then []
            else (exonerate_multiprocessing keep_intermediate_files gene_logs
                futures).main_log.map Prod.fst) := by
  rw [exonerate_multiprocessing_eq]
  exact relogBatch_mainLog keep_intermediate_files gene_logs futures

/-- Membership in the warning block reported for a non-empty
failed-intronerate bucket. -/
theorem mem_intronerateWarningReport {genes : List String} {g : String}
    (hg : g ∈ genes) :
    intronerateWarningReport genes ≠ []
    ∧ warningIndentText ++ g ∈ intronerateWarningReport genes := by
  have hne : genes.isEmpty = false := by
    cases genes with
    | nil => cases hg
    | cons a l => rfl
  unfold intronerateWarningReport
  rw [hne]
  simp only [Bool.false_eq_true, if_false]
  exact ⟨by simp, List.mem_cons_of_mem _ (List.mem_map_of_mem _ hg)⟩

/-- C9: a gene task whose stitching succeeds but whose optional intronerate
step raises is still an overall success: the worker returns the five-element
result with the sequence length and `intronerate_success = False`, the gene
and its length appear in the success aggregate, and at batch end the gene is
in the failed-intronerate bucket, which is reported as a warning listing the
gene. -/
theorem intronerate_failure_is_warning_only
    (env : GeneEnv) (g : String) (rt len : Nat)
    (hc : env.contigsFileExists = true) (ht : env.targetFileExists = true)
    (hio : env.initialExonerateOutput = true)
    (hres : env.exonerateResultTruthy = true)
    (hlen : env.stitchedContigLen = some len) (hlen0 : len ≠ 0)
    (hhits : env.hitsFilteredNonempty = true)
    (hir : env.intronerateRaises = true) (hg : g ≠ "")
    (keep_intermediate_files : Bool) (gene_logs : String → List String)
    (before after : List (String × FutureOutcome)) :
    exonerate env g false rt
        = FutureOutcome.result5 g (some len) rt env.stopCodons IntronerateOutcome.failed
    ∧ (g, len) ∈ (exonerate_multiprocessing keep_intermediate_files gene_logs
        (before ++ (g, exonerate env g false rt) :: after)).genes_with_seqs
    ∧ g ∈ (exonerate_multiprocessing keep_intermediate_files gene_logs
        (before ++ (g, exonerate env g false rt) :: after)).genes_with_failed_intronerate
    ∧ intronerateWarningReport
        ((exonerate_multiprocessing keep_intermediate_files gene_logs
          (before ++ (g, exonerate env g false rt) :: after)).genes_with_failed_intronerate)
        ≠ []
    ∧ warningIndentText ++ g ∈ intronerateWarningReport
        ((exonerate_multiprocessing keep_intermediate_files gene_logs
          (before ++ (g, exonerate env g false rt) :: after)).genes_with_failed_intronerate) := by
  have hres5 : exonerate env g false rt
      = FutureOutcome.result5 g (some len) rt env.stopCodons IntronerateOutcome.failed := by
    simp [exonerate, hc, ht, hio, hres, hhits, hir, hlen, stitchedTruthy, hlen0]
  have hseq : (g, len) ∈ (exonerate_multiprocessing keep_intermediate_files gene_logs
      (before ++ (g, exonerate env g false rt) :: after)).genes_with_seqs := by
    rw [exonerate_multiprocessing_eq]
    simp only [List.flatMap_append, List.flatMap_cons, hres5]
    refine List.mem_append.mpr (Or.inr (List.mem_append.mpr (Or.inl ?_)))
    simp [seqsOf, hg, hlen0]
  have hintr : g ∈ (exonerate_multiprocessing keep_intermediate_files gene_logs
      (before ++ (g, exonerate env g false rt) :: after)).genes_with_failed_intronerate := by
    rw [exonerate_multiprocessing_eq]
    simp only [List.flatMap_append, List.flatMap_cons, hres5]
    refine List.mem_append.mpr (Or.inr (List.mem_append.mpr (Or.inl ?_)))
    simp [intrOf]
  have hrep := mem_intronerateWarningReport hintr
  exact ⟨hres5, hseq, hintr, hrep.1, hrep.2⟩

/-- Witness for C9: gene `geneD` stitches a 312-residue sequence while its
intronerate step raises; it appears in the success aggregate and in the
warning block. -/
theorem intronerate_failure_is_warning_only_witness :
    (envIntronerateFails.contigsFileExists = true ∧ geneD ≠ "")
    ∧ exonerate envIntronerateFails geneD false 3
        = FutureOutcome.result5 geneD (some 312) 3 false IntronerateOutcome.failed
    ∧ (geneD, 312) ∈ (exonerate_multiprocessing false plainGeneLogs
        ([] ++ (geneD, exonerate envIntronerateFails geneD false 3) :: [])).genes_with_seqs
    ∧ warningIndentText ++ geneD ∈ intronerateWarningReport
        ((exonerate_multiprocessing false plainGeneLogs
          ([] ++ (geneD, exonerate envIntronerateFails geneD false 3)
            :: [])).genes_with_failed_intronerate) := by
  have h := intronerate_failure_is_warning_only envIntronerateFails geneD 3 312
    rfl rfl rfl rfl rfl (by decide) rfl rfl (by decide) false plainGeneLogs [] []
  exact ⟨⟨rfl, by decide⟩, h.1, h.2.1, h.2.2.2.2⟩

/-- C5 counterexample: a batch of one scheduled task whose worker is killed
by the timeout cancellation before reaching the `with lock:` block. Its
future reaches a terminal state (timed-out), so all K = 1 futures are
terminal, yet the shared counter holds 0, not K. -/
theorem counter_below_K_after_timeout_kill :
    counterAfterBatch [TaskExecution.killedBeforeIncrement] = 0
    ∧ counterAfterBatch [TaskExecution.killedBeforeIncrement] ≠ 1 := by
  decide

/-- C5 amended: the shared progress counter is only ever incremented while
the shared lock is held, and for a batch of K scheduled tasks none of whose
workers was killed before reaching its increment, the counter equals K after
all K futures reach a terminal state, regardless of completion order. -/
theorem counter_under_lock_reaches_K
    (ts : List TaskExecution)
    (h : ∀ t ∈ ts, t ≠ TaskExecution.killedBeforeIncrement) :
    (∀ t ∈ ts, incrementsUnderLock false (taskLockEvents t) = true)
    ∧ counterAfterBatch ts = ts.length := by
  constructor
  · intro t _
    cases t <;> rfl
  · revert h
    induction ts with
    | nil => intro h; rfl
    | cons t rest ih =>
        intro h
        have ht := h t (List.mem_cons_self t rest)
        have hrest := ih (fun x hx => h x (List.mem_cons_of_mem t hx))
        simp only [counterAfterBatch, List.map_cons, List.sum_cons, List.length_cons] at hrest ⊢
        rw [hrest]
        cases t with
        | killedBeforeIncrement => exact absurd rfl ht
        | ranToCompletion => simp [taskIncrements, taskLockEvents]; omega
        | killedAfterIncrement => simp [taskIncrements, taskLockEvents]; omega

/-- Witness for C5 (amended) at a batch of three tasks, none killed before
its increment: the counter reaches K = 3 and every increment is under the
lock. -/
theorem counter_under_lock_reaches_K_witness :
    (∀ t ∈ [TaskExecution.ranToCompletion, TaskExecution.killedAfterIncrement,
        TaskExecution.ranToCompletion], t ≠ TaskExecution.killedBeforeIncrement)
    ∧ (∀ t ∈ [TaskExecution.ranToCompletion, TaskExecution.killedAfterIncrement,
        TaskExecution.ranToCompletion], incrementsUnderLock false (taskLockEvents t) = true)
    ∧ counterAfterBatch [TaskExecution.ranToCompletion,
        TaskExecution.killedAfterIncrement, TaskExecution.ranToCompletion] = 3 := by
  have h := counter_under_lock_reaches_K
    [TaskExecution.ranToCompletion, TaskExecution.killedAfterIncrement,
      TaskExecution.ranToCompletion] (by decide)
  exact ⟨by decide, h.1, h.2⟩

/-- Killing each victim in turn removes all victims from the running and
zombie lists; the spawn forest itself is unchanged. -/
theorem foldl_kill_child (victims : List Nat) (w : ProcTable) :
    victims.foldl kill_child w
      = ⟨w.edges, w.running.filter (fun r => decide (r ∉ victims)),
         w.zombies.filter (fun r => decide (r ∉ victims))⟩ := by
  induction victims generalizing w with
  | nil => obtain ⟨e, r, z⟩ := w; simp
  | cons v vs ih =>
      rw [List.foldl_cons, ih]
      obtain ⟨e, r, z⟩ := w
      simp only [kill_child, ProcTable.mk.injEq, true_and]
      constructor <;>
      · rw [List.filter_filter]
        apply List.filter_congr
        intro x _
        by_cases h1 : x = v <;> by_cases h2 : x ∈ vs <;>
          simp [h1, h2, List.mem_cons]

/-- One pass of the kill loop, in closed form. -/
theorem killPass_eq (roots : List Nat) (w : ProcTable) :
    killPass roots w
      = (⟨w.edges,
          w.running.filter
            (fun r => decide (r ∉ roots.flatMap (children_recursive w))),
          w.zombies.filter
            (fun r => decide (r ∉ roots.flatMap (children_recursive w)))⟩,
         roots.flatMap (children_recursive w)) := by
  unfold killPass
  simp only [foldl_kill_child]

/-- Everything reported by the fuelled enumeration is present in the
process table it was given. -/
theorem enumFrom_mem_table {edges : List (Nat × Nat)} {table running : List Nat} :
    ∀ {fuel : Nat} {frontier : List Nat} {q : Nat},
      q ∈ enumFrom edges table running fuel frontier → q ∈ table := by
  intro fuel
  induction fuel with
  | zero =>
      intro frontier q h
      simp [enumFrom] at h
  | succ n ih =>
      intro frontier q h
      simp only [enumFrom] at h
      rcases List.mem_append.mp h with hk | hr
      · obtain ⟨p, _, hq⟩ := List.mem_flatMap.mp hk
        exact of_decide_eq_true (List.mem_filter.mp hq).2
      · exact ih hr

/-- The enumeration shrinks as processes leave the table or stop running. -/
theorem enumFrom_mono {edges : List (Nat × Nat)}
    {table1 table2 running1 running2 : List Nat}
    (htab : ∀ x, x ∈ table1 → x ∈ table2)
    (hrun : ∀ x, x ∈ running1 → x ∈ running2) :
    ∀ (fuel : Nat) (f1 f2 : List Nat), (∀ x, x ∈ f1 → x ∈ f2) →
      ∀ q, q ∈ enumFrom edges table1 running1 fuel f1 →
        q ∈ enumFrom edges table2 running2 fuel f2 := by
  intro fuel
  induction fuel with
  | zero =>
      intro f1 f2 _ q h
      simp [enumFrom] at h
  | succ n ih =>
      intro f1 f2 hf q h
      simp only [enumFrom] at h ⊢
      have hkids : ∀ x,
          x ∈ (f1.filter (fun p => decide (p ∈ running1))).flatMap
            (psChildPids edges table1) →
          x ∈ (f2.filter (fun p => decide (p ∈ running2))).flatMap
            (psChildPids edges table2) := by
        intro x hx
        obtain ⟨p, hp, hx2⟩ := List.mem_flatMap.mp hx
        obtain ⟨hpf, hpr⟩ := List.mem_filter.mp hp
        obtain ⟨hbase, hxt⟩ := List.mem_filter.mp hx2
        refine List.mem_flatMap.mpr ⟨p, List.mem_filter.mpr
          ⟨hf p hpf, decide_eq_true (hrun p (of_decide_eq_true hpr))⟩, ?_⟩
        exact List.mem_filter.mpr
          ⟨hbase, decide_eq_true (htab x (of_decide_eq_true hxt))⟩
      rcases List.mem_append.mp h with hk | hr
      · exact List.mem_append.mpr (Or.inl (hkids q hk))
      · exact List.mem_append.mpr (Or.inr (ih _ _ hkids q hr))

/-- Every enumerated victim is present in the process table. -/
theorem victims_mem_table {roots : List Nat} {w : ProcTable} {q : Nat}
    (hq : q ∈ roots.flatMap (children_recursive w)) : q ∈ w.table := by
  obtain ⟨p, _, hq2⟩ := List.mem_flatMap.mp hq
  unfold children_recursive at hq2
  exact enumFrom_mem_table hq2

/-- After a pass killed every enumerated descendant, a fresh pass over the
same tracked parents enumerates none: a survivor would have to be both
still in the table and among the already-killed victims. -/
theorem second_pass_empty (roots : List Nat) (w : ProcTable) :
    roots.flatMap (children_recursive
      ⟨w.edges,
       w.running.filter
         (fun r => decide (r ∉ roots.flatMap (children_recursive w))),
       w.zombies.filter
         (fun r => decide (r ∉ roots.flatMap (children_recursive w)))⟩) = [] := by
  rw [List.eq_nil_iff_forall_not_mem]
  intro q hq
  obtain ⟨p, hp, hq2⟩ := List.mem_flatMap.mp hq
  simp only [children_recursive, ProcTable.table] at hq2
  have hqt := enumFrom_mem_table hq2
  have hqnv : q ∉ roots.flatMap (children_recursive w) := by
    rcases List.mem_append.mp hqt with hqr | hqz
    · exact of_decide_eq_true (List.mem_filter.mp hqr).2
    · exact of_decide_eq_true (List.mem_filter.mp hqz).2
  apply hqnv
  refine List.mem_flatMap.mpr ⟨p, hp, ?_⟩
  simp only [children_recursive, ProcTable.table]
  refine enumFrom_mono ?_ ?_ _ [p] [p] (fun x hx => hx) q hq2
  · intro x hx
    rcases List.mem_append.mp hx with h1 | h1
    · exact List.mem_append.mpr (Or.inl (List.mem_filter.mp h1).1)
    · exact List.mem_append.mpr (Or.inr (List.mem_filter.mp h1).1)
  · intro x hx
    exact (List.mem_filter.mp hx).1

/-- The interrupt handler when every registered pid is still in the process
table, in closed form: one pass kills every enumerated descendant, and the
next pass always finds zero, so the loop stops within the fuel. -/
theorem interruptCleanup_run (w : ProcTable) (pid_list : List Nat)
    (hall : ∀ p ∈ pid_list, p ∈ w.table) :
    interruptCleanup w pid_list
      = (if (pid_list.dedup.flatMap (children_recursive w)).isEmpty then
          (⟨true, false, [], w, true, 1⟩ : CleanupOutcome)
        else
          ⟨true, false, pid_list.dedup.flatMap (children_recursive w),
            ⟨w.edges,
             w.running.filter
               (fun r => decide (r ∉ pid_list.dedup.flatMap (children_recursive w))),
             w.zombies.filter
               (fun r => decide (r ∉ pid_list.dedup.flatMap (children_recursive w)))⟩,
            true, 1⟩) := by
  have hallb : (pid_list.dedup.all (fun p => decide (p ∈ w.table))) = true := by
    rw [List.all_eq_true]
    intro p hp
    exact decide_eq_true (hall p (List.mem_dedup.mp hp))
  unfold interruptCleanup
  rw [if_pos hallb]
  by_cases hv : (pid_list.dedup.flatMap (children_recursive w)).isEmpty
  · rw [if_pos hv]
    simp only [killLoop, killPass_eq, hv]
    rfl
  · rw [if_neg hv]
    have hne : pid_list.dedup.flatMap (children_recursive w) ≠ [] := by
      intro hcontra
      rw [hcontra] at hv
      exact hv rfl
    obtain ⟨q, hq⟩ := List.exists_mem_of_ne_nil _ hne
    have htab : w.table ≠ [] := by
      intro hcontra
      have := victims_mem_table hq
      rw [hcontra] at this
      cases this
    obtain ⟨k, hk⟩ : ∃ k, w.table.length = k + 1 := by
      cases hcase : w.table with
      | nil => exact absurd hcase htab
      | cons a l => exact ⟨l.length, rfl⟩
    rw [hk]
    simp only [killLoop, killPass_eq, hv]
    rw [if_neg (by simp [hv])]
    simp only [killLoop, killPass_eq, second_pass_empty]
    simp

/-- C4 counterexample: the registered worker pid 20 has already exited and
been reaped (the state the pebble timeout kill leaves behind), so it is gone
from the process table, while the registered worker 10 is still running with
the live grandchild 12. The handler aborts at the unguarded
`psutil.Process` construction of line 1230 with `psutil.NoSuchProcess`:
nothing is killed, the loop never runs, and the live descendant 12 of the
registered pid 10 survives - the already-exited registered process is
treated as an error, not success, and the descendants are not terminated. -/
theorem cleanup_aborts_on_exited_registered_pid :
    20 ∉ cexWorld.table
    ∧ 12 ∈ children_recursive cexWorld 10
    ∧ (interruptCleanup cexWorld [10, 20]).uncaughtNoSuchProcess = true
    ∧ (interruptCleanup cexWorld [10, 20]).killed = []
    ∧ (interruptCleanup cexWorld [10, 20]).loopCompleted = false
    ∧ 12 ∈ (interruptCleanup cexWorld [10, 20]).finalWorld.running := by
  decide

/-- C4 amended: on a user interrupt the handler first suppresses further
interrupt delivery; then, provided every distinct registered worker pid is
still present in the process table, it recursively enumerates for each one
the descendant processes psutil still reports (descending through running
processes - an exited parent's children were reparented away) and forcibly
terminates each, an attempt to kill an already-exited process succeeding
with no effect, repeats until a full pass finds zero descendants, and exits
the run with the non-zero status 1. When some registered pid has already
exited, the unguarded `psutil.Process` construction of line 1230 raises out
of the handler and nothing is killed. -/
theorem interrupt_cleanup_kills_enumerable_descendants
    (w : ProcTable) (pid_list : List Nat)
    (hreg : ∀ p ∈ pid_list, p ∈ w.table) :
    (interruptCleanup w pid_list).sigintSuppressedFirst = true
    ∧ (interruptCleanup w pid_list).uncaughtNoSuchProcess = false
    ∧ (interruptCleanup w pid_list).exitStatus = 1
    ∧ (interruptCleanup w pid_list).loopCompleted = true
    ∧ (∀ p ∈ pid_list,
        children_recursive (interruptCleanup w pid_list).finalWorld p = [])
    ∧ (∀ p ∈ pid_list, ∀ q ∈ children_recursive w p,
        q ∈ (interruptCleanup w pid_list).killed)
    ∧ (∀ (v : ProcTable) (q : Nat), q ∉ v.table → kill_child v q = v) := by
  rw [interruptCleanup_run w pid_list hreg]
  by_cases hv : (pid_list.dedup.flatMap (children_recursive w)).isEmpty
  · rw [if_pos hv]
    have hvnil : pid_list.dedup.flatMap (children_recursive w) = [] :=
      List.isEmpty_iff.mp hv
    refine ⟨rfl, rfl, rfl, rfl, ?_, ?_, ?_⟩
    · intro p hp
      rw [List.eq_nil_iff_forall_not_mem]
      intro q hq
      have hmem : q ∈ pid_list.dedup.flatMap (children_recursive w) :=
        List.mem_flatMap.mpr ⟨p, List.mem_dedup.mpr hp, hq⟩
      rw [hvnil] at hmem
      cases hmem
    · intro p hp q hq
      have hmem : q ∈ pid_list.dedup.flatMap (children_recursive w) :=
        List.mem_flatMap.mpr ⟨p, List.mem_dedup.mpr hp, hq⟩
      rw [hvnil] at hmem
      cases hmem
    · intro v q hq
      obtain ⟨e, r, z⟩ := v
      have hqr : q ∉ r := fun hmem => hq (List.mem_append.mpr (Or.inl hmem))
      have hqz : q ∉ z := fun hmem => hq (List.mem_append.mpr (Or.inr hmem))
      simp only [kill_child, ProcTable.mk.injEq, true_and]
      constructor
      · exact List.filter_eq_self.mpr
          (fun a ha => decide_eq_true (fun hc => hqr (hc ▸ ha)))
      · exact List.filter_eq_self.mpr
          (fun a ha => decide_eq_true (fun hc => hqz (hc ▸ ha)))
  · rw [if_neg hv]
    refine ⟨rfl, rfl, rfl, rfl, ?_, ?_, ?_⟩
    · intro p hp
      rw [List.eq_nil_iff_forall_not_mem]
      intro q hq
      have hmem : q ∈ pid_list.dedup.flatMap (children_recursive
          ⟨w.edges,
           w.running.filter
             (fun r => decide (r ∉ pid_list.dedup.flatMap (children_recursive w))),
           w.zombies.filter
             (fun r => decide (r ∉ pid_list.dedup.flatMap (children_recursive w)))⟩) :=
        List.mem_flatMap.mpr ⟨p, List.mem_dedup.mpr hp, hq⟩
      rw [second_pass_empty] at hmem
      cases hmem
    · intro p hp q hq
      exact List.mem_flatMap.mpr ⟨p, List.mem_dedup.mpr hp, hq⟩
    · intro v q hq
      obtain ⟨e, r, z⟩ := v
      have hqr : q ∉ r := fun hmem => hq (List.mem_append.mpr (Or.inl hmem))
      have hqz : q ∉ z := fun hmem => hq (List.mem_append.mpr (Or.inr hmem))
      simp only [kill_child, ProcTable.mk.injEq, true_and]
      constructor
      · exact List.filter_eq_self.mpr
          (fun a ha => decide_eq_true (fun hc => hqr (hc ▸ ha)))
      · exact List.filter_eq_self.mpr
          (fun a ha => decide_eq_true (fun hc => hqz (hc ▸ ha)))

/-- Witness for C4 (amended) on the chain 10 -> 11 -> 12 with the worker pid
10 registered twice and still running: the grandchild 12 is among the killed
pids, no descendant of 10 survives, the exit status is 1, and a kill attempt
on the absent pid 99 succeeds with no effect. -/
theorem interrupt_cleanup_kills_enumerable_descendants_witness :
    (∀ p ∈ [10, 10], p ∈ cexWorld.table)
    ∧ (interruptCleanup cexWorld [10, 10]).exitStatus = 1
    ∧ children_recursive (interruptCleanup cexWorld [10, 10]).finalWorld 10 = []
    ∧ 12 ∈ (interruptCleanup cexWorld [10, 10]).killed
    ∧ kill_child cexWorld 99 = cexWorld := by
  have h := interrupt_cleanup_kills_enumerable_descendants cexWorld [10, 10]
    (by decide)
  exact ⟨by decide, h.2.2.1, h.2.2.2.2.1 10 (by decide),
    h.2.2.2.2.2.1 10 (by decide) 12 (by decide),
    h.2.2.2.2.2.2 cexWorld 99 (by decide)⟩

/-- C7: every stage pair with `order(start) <= order(end)` passes the stage
range check of line 1321, and every pair with `order(start) > order(end)` is
rejected there - the run terminates through the bare `sys.exit()` of line
1329 with no collaborator (mapping, distribution, assembly or exonerate
backend) having been invoked. -/
theorem stage_order_gate (s e : Stage) :
    (assemble_stages_dict s ≤ assemble_stages_dict e ↔ stageOrderValid s e = true)
    ∧ (assemble_stages_dict e < assemble_stages_dict s →
        ∀ (a : AssembleArgs) (fs : AssembleFS),
          a.start_from = s → a.end_with = e → a.readfilesCount ≤ 2 →
          fs.depsOk = true →
          (assemble a fs).events = [] ∧ (assemble a fs).term = PyTerm.sysExitNoArg) := by
  constructor
  · simp [stageOrderValid]
  · intro hgt a fs hs he hc hd
    have hv : stageOrderValid a.start_from a.end_with = false := by
      rw [hs, he]
      simp [stageOrderValid]
      omega
    have h1 : ¬ 2 < a.readfilesCount := by omega
    simp [assemble, h1, hd, hv]

/-- Witness for C7 at the pair (exonerate_contigs, map_reads), which is out
of order, and the pair (map_reads, exonerate_contigs), which is accepted. -/
theorem stage_order_gate_witness :
    stageOrderValid Stage.map_reads Stage.exonerate_contigs = true
    ∧ (assemble (argsBwa Stage.exonerate_contigs Stage.map_reads) fsAllGood).events = []
    ∧ (assemble (argsBwa Stage.exonerate_contigs Stage.map_reads) fsAllGood).term
        = PyTerm.sysExitNoArg := by
  have h1 := (stage_order_gate Stage.map_reads Stage.exonerate_contigs).1.mp (by decide)
  have h2 := (stage_order_gate Stage.exonerate_contigs Stage.map_reads).2 (by decide)
    (argsBwa Stage.exonerate_contigs Stage.map_reads) fsAllGood rfl rfl (by decide) rfl
  exact ⟨h1, h2.1, h2.2⟩

/-- C8: a run that starts from a stage later than map_reads and misses the
upstream artifact required by the stage skipped into halts with
`sys.exit(1)` (process exit status 1), invokes no collaborator, and logs one
diagnostic built around the name of the missing artifact. The three artifact
kinds: the bam mapping output (lines 1417-1426), the distributed per-gene
read files (lines 1479-1487), the SPAdes contig assemblies (lines
1521-1528). -/
theorem resume_missing_artifact_fails_fast
    (a : AssembleArgs) (fs : AssembleFS)
    (hmode : a.bwa = true) (hcount : a.readfilesCount = 2)
    (hdeps : fs.depsOk = true)
    (horder : stageOrderValid a.start_from a.end_with = true)
    (htf : fs.targetfileOk = true) (hrf : fs.readfilesOk = true)
    (hu : a.unpaired = false) :
    (a.start_from ≠ Stage.map_reads → fs.bamfileOk = false →
        (assemble a fs).term = PyTerm.sysExitCode 1
        ∧ (assemble a fs).events = []
        ∧ (assemble a fs).logs
            = [bamResumeErrPre ++ bamfileName a.sample_dir ++ bamResumeErrSuf])
    ∧ (2 ≤ assemble_stages_dict a.start_from → fs.bamfileOk = true →
        fs.distributedFastasExist = false →
        (assemble a fs).term = PyTerm.sysExitCode 1
        ∧ (assemble a fs).events = []
        ∧ (assemble a fs).logs = [distributedResumeErrMsg])
    ∧ (a.start_from = Stage.exonerate_contigs → fs.bamfileOk = true →
        fs.distributedFastasExist = true → fs.genesWithReads ≠ [] →
        fs.assembliesExist = false →
        (assemble a fs).term = PyTerm.sysExitCode 1
        ∧ (assemble a fs).events = []
        ∧ (assemble a fs).logs = [assembliesResumeErrMsg]) := by
  have h1 : ¬ 2 < a.readfilesCount := by omega
  have hru : ¬ (a.readfilesCount = 1 ∧ a.unpaired = true) := by
    intro hcontra
    rw [hu] at hcontra
    cases hcontra.2
  refine ⟨?_, ?_, ?_⟩
  · intro hsf hbam
    simp [assemble, mappingPhase, h1, hdeps, horder, htf, hrf, hu, hru,
      hmode, hsf, hbam, bamResumeErrMsg]
  · intro hsf hbam hdf
    have hnm : a.start_from ≠ Stage.map_reads := by
      intro hcontra
      rw [hcontra] at hsf
      simp [assemble_stages_dict] at hsf
    have hne : a.end_with ≠ Stage.map_reads := by
      intro hcontra
      have h0 : assemble_stages_dict a.start_from ≤ assemble_stages_dict a.end_with := by
        simpa [stageOrderValid] using horder
      rw [hcontra] at h0
      have hmap0 : assemble_stages_dict Stage.map_reads = 0 := rfl
      omega
    simp [assemble, mappingPhase, afterMappingPhase, distributePhase, h1,
      hdeps, horder, htf, hrf, hu, hru, hmode, hnm, hne, hbam, hdf, hsf]
  · intro hsf hbam hdf hgenes hassem
    have hnm : a.start_from ≠ Stage.map_reads := by
      rw [hsf]
      intro hcontra
      cases hcontra
    have hord : 2 ≤ assemble_stages_dict a.start_from := by
      rw [hsf]
      decide
    have h3 : 3 ≤ assemble_stages_dict a.start_from := by
      rw [hsf]
      decide
    have hee : a.end_with = Stage.exonerate_contigs := by
      rw [hsf] at horder
      revert horder
      cases a.end_with <;> simp [stageOrderValid, assemble_stages_dict]
    have hne : a.end_with ≠ Stage.map_reads := by rw [hee]; intro hc; cases hc
    have hnd : a.end_with ≠ Stage.distribute_reads := by rw [hee]; intro hc; cases hc
    have hgempty : fs.genesWithReads.isEmpty = false := by
      cases hg : fs.genesWithReads with
      | nil => exact absurd hg hgenes
      | cons x l => rfl
    simp [assemble, mappingPhase, afterMappingPhase, distributePhase,
      genesCheckPhase, assemblePhase, h1, hdeps, horder, htf, hrf, hu, hru,
      hmode, hnm, hne, hnd, hbam, hdf, hord, h3, hgempty, hassem]

/-- Witness for C8 at three concrete resumed runs, one per artifact kind:
resuming at distribute_reads without the bam file, at assemble_reads without
distributed reads, at exonerate_contigs without assemblies. -/
theorem resume_missing_artifact_fails_fast_witness :
    (assemble (argsBwa Stage.distribute_reads Stage.exonerate_contigs) fsNoBam).term
        = PyTerm.sysExitCode 1
    ∧ (assemble (argsBwa Stage.assemble_reads Stage.exonerate_contigs) fsNoFastas).term
        = PyTerm.sysExitCode 1
    ∧ (assemble (argsBwa Stage.assemble_reads Stage.exonerate_contigs) fsNoFastas).events
        = []
    ∧ (assemble (argsBwa Stage.exonerate_contigs Stage.exonerate_contigs)
        fsNoAssemblies).logs = [assembliesResumeErrMsg] := by
  have hA := resume_missing_artifact_fails_fast
    (argsBwa Stage.distribute_reads Stage.exonerate_contigs) fsNoBam
    rfl rfl rfl (by decide) rfl rfl rfl
  have hB := resume_missing_artifact_fails_fast
    (argsBwa Stage.assemble_reads Stage.exonerate_contigs) fsNoFastas
    rfl rfl rfl (by decide) rfl rfl rfl
  have hC := resume_missing_artifact_fails_fast
    (argsBwa Stage.exonerate_contigs Stage.exonerate_contigs) fsNoAssemblies
    rfl rfl rfl (by decide) rfl rfl rfl
  refine ⟨(hA.1 (by decide) rfl).1, ?_, ?_, ?_⟩
  · exact (hB.2.1 (by decide) rfl rfl).1
  · exact (hB.2.1 (by decide) rfl rfl).2.1
  · exact (hC.2.2 rfl rfl rfl (by decide) rfl).2.2

/-- C3 (divergence of the code from the claimed exit codes): evaluating the
embedded `assemble()` at each condition the claim covers. A bad stage order
terminates through the bare `sys.exit()` of line 1329, giving process exit
status 0 rather than the claimed 1. The no-genes-with-reads condition plain
returns (line 1509) and the no-genes-recovered condition executes
`return 1` (line 1601); `main()` discards the returned value (lines 1939
and 1946), so both give process exit status 0 rather than the claimed 1.
The claim holds for the other conditions it covers: an early stop requested
via the end stage exits 0, and a missing resume artifact exits 1. -/
theorem exit_status_on_failures
    : ((assemble (argsBwa Stage.exonerate_contigs Stage.map_reads) fsAllGood).term
        = PyTerm.sysExitNoArg
      ∧ ((assemble (argsBwa Stage.exonerate_contigs Stage.map_reads) fsAllGood).term).processExit
        = 0)
    ∧ ((assemble (argsBwa Stage.map_reads Stage.map_reads) fsAllGood).term
        = PyTerm.sysExitNoArg
      ∧ ((assemble (argsBwa Stage.map_reads Stage.map_reads) fsAllGood).term).processExit
        = 0)
    ∧ ((assemble (argsBwa Stage.distribute_reads Stage.exonerate_contigs) fsNoBam).term).processExit
        = 1
    ∧ ((assemble (argsBwa Stage.map_reads Stage.exonerate_contigs) fsNoGenesWithReads).term
        = PyTerm.funcReturn none
      ∧ ((assemble (argsBwa Stage.map_reads Stage.exonerate_contigs)
          fsNoGenesWithReads).term).processExit = 0)
    ∧ ((assemble (argsBwa Stage.map_reads Stage.exonerate_contigs) fsNoExonerateGenes).term
        = PyTerm.funcReturn (some 1)
      ∧ ((assemble (argsBwa Stage.map_reads Stage.exonerate_contigs)
          fsNoExonerateGenes).term).processExit = 0) := by
  decide

/-- C10: running the read-mapping stage when a valid prebuilt index for the
target file already exists reuses it. `bwa()` with an existing `.amb` index
never invokes `bwa index`; `blastx()` with an existing `.psq` BLAST database
or `.dmnd` DIAMOND database never invokes `makeblastdb` or
`diamond makedb`; in each case the database file used is the existing one. -/
theorem prebuilt_index_reused
    (envB : BwaEnv) (envX : BlastxEnv) (base dir : String)
    (hbt : envB.targetfileExists = true) (hamb : envB.ambIndexExists = true)
    (hxt : envX.targetfileExists = true)
    (hdb : envX.psqExists = true ∨ envX.dmndExists = true) :
    (MapEvent.makeBwaIndex ∉ (bwa envB base dir).events
      ∧ (bwa envB base dir).db_file = some base)
    ∧ (MapEvent.makeBlastDb ∉ (blastx envX base dir).events
      ∧ MapEvent.makeDiamondDb ∉ (blastx envX base dir).events
      ∧ (blastx envX base dir).db_file = some base) := by
  constructor
  · cases hm : envB.mappingSucceeds <;> simp [bwa, hbt, hamb, hm]
  · have hpd : (envX.psqExists || envX.dmndExists) = true := by
      rcases hdb with h | h <;> simp [h]
    cases hs : envX.searchSucceeds <;> simp [blastx, hxt, hpd, hs]

/-- Witness for C10 with the target file and prebuilt databases present. -/
theorem prebuilt_index_reused_witness :
    MapEvent.makeBwaIndex ∉ (bwa bwaEnvIndexed geneA geneB).events
    ∧ (bwa bwaEnvIndexed geneA geneB).db_file = some geneA
    ∧ MapEvent.makeBlastDb ∉ (blastx blastxEnvIndexed geneA geneB).events
    ∧ (blastx blastxEnvIndexed geneA geneB).db_file = some geneA := by
  have h := prebuilt_index_reused bwaEnvIndexed blastxEnvIndexed geneA geneB
    rfl rfl rfl (Or.inl rfl)
  exact ⟨h.1.1, h.1.2, h.2.1, h.2.2.2⟩

end HybPiper
